import Mathlib

/-!
Verification of the Soccer Math game (browser arithmetic mini-game).

The development shallowly embeds the game logic of
`src/unnamed/part_000` (the spacebar charge-and-release variant, which
subsumes the click variant `src/components/SoccerMathGame.tsx`: the two
share `generateQuestion`, the answer-resolution logic, the 1500 ms
question-advance timeout and `resetRound`).

Randomness (`Math.random()` draws) is made explicit: every operation that
draws random numbers takes them as arguments (`r % 10 + 1` models
`Math.floor(Math.random() * 10) + 1`, and so on).  The random comparator
shuffle `Array.from(options).sort(() => Math.random() - 0.5)` is modelled
by passing a candidate shuffled list which is used when it is a
permutation of the generated option list.

The event-driven component is embedded as an explicit state machine: each
DOM / timer callback of the source becomes one event.  In-flight
asynchronous work is part of the state: `pendingKicks` holds the selected
values of kick animations whose completion callback (`finishKick`) has not
yet run, and `pendingNext` counts scheduled 1500 ms question-advance
timeouts.  Crucially — mirroring the source — `togglePause` does not stop
the charge interval, and `resetRound` cancels neither in-flight kick
animations nor pending timeouts.
-/

namespace SoccerMath

/-- `QUESTION_COUNT` constant of the source. -/
def QUESTION_COUNT : Nat := 10

/-- `ANIMATION_DURATION` constant of the source (ms). -/
def ANIMATION_DURATION : ℚ := 800

/-- The 1500 ms feedback-display delay hard-coded in `finishKick`. -/
def FEEDBACK_DELAY : Nat := 1500

/-- `GOAL_POSITIONS` constant of the source: close, mid, far targets
(percent coordinates). -/
def GOAL_POSITIONS : List (ℚ × ℚ) := [(40, 50), (65, 50), (90, 50)]

/-- The ball start position `{ x: 12, y: 58 }` of the source. -/
def kickStartPos : ℚ × ℚ := (12, 58)

/-- The `Question` interface of the source. -/
structure Question where
  num1 : Nat
  num2 : Nat
  answer : Nat
  options : List Nat
  deriving DecidableEq, Repr

/-- An operand draw: `Math.floor(Math.random() * 10) + 1` applied to a raw
random natural. -/
def operandDraw (r : Nat) : Nat := r % 10 + 1

/-- A distractor draw: `Math.floor(Math.random() * 20) + 1` applied to a
raw random natural. -/
def wrongDraw (r : Nat) : Nat := r % 20 + 1

/-- The option-building loop of `generateQuestion`: starting from the
insertion-ordered set contents `opts` (initially `[answer]`), it repeats
`while (options.size < 3) { const wrong = …; if (wrong !== answer)
options.add(wrong) }`, consuming one raw random draw per iteration.  A JS
`Set` keeps insertion order and ignores duplicate adds, hence the
append-if-absent.  The loop is given the (finite) list of draws it
consumes; the source loop terminates with probability 1. -/
def genOptionsAux (answer : Nat) : List Nat → List Nat → List Nat
  | opts, [] => opts
  | opts, r :: rest =>
    if opts.length < 3 then
      if wrongDraw r ≠ answer ∧ wrongDraw r ∉ opts then
        genOptionsAux answer (opts ++ [wrongDraw r]) rest
      else
        genOptionsAux answer opts rest
    else opts

/-- The pure content of `generateQuestion`: operands from two draws, the
answer as their sum, options built by the set loop and then shuffled.
`shuffled` is the outcome of the random comparator sort; it is used when
it is a permutation of the generated list (the sort can produce any
permutation), otherwise the unshuffled list stands. -/
def mkQuestion (r1 r2 : Nat) (draws shuffled : List Nat) : Question :=
  let num1 := operandDraw r1
  let num2 := operandDraw r2
  let answer := num1 + num2
  let base := genOptionsAux answer [answer] draws
  { num1 := num1, num2 := num2, answer := answer,
    options := if shuffled.Perm base then shuffled else base }

/-- The power → target-index mapping appearing identically in the charge
interval callback and in `handleKeyUp`:
`let targetIndex = 0; if (power > 66) targetIndex = 2;
else if (power > 33) targetIndex = 1`. -/
def tierIndex (power : Nat) : Nat :=
  if power > 66 then 2 else if power > 33 then 1 else 0

/-- One firing of the 40 ms charge interval on the power value:
`if (kickPowerRef.current < 100) kickPowerRef.current += 4;
else kickPowerRef.current = 100`. -/
def chargeStep (p : Nat) : Nat := if p < 100 then p + 4 else 100

/-- Power after `n` charge ticks of a hold (`handleKeyDown` resets the
power to 0 when the hold starts). -/
def chargePowerAfter : Nat → Nat
  | 0 => 0
  | n + 1 => chargeStep (chargePowerAfter n)

/-- `progress = Math.min(elapsed / ANIMATION_DURATION, 1)` from
`startBallAnimation`. -/
def progressAt (elapsed : ℚ) : ℚ := min (elapsed / ANIMATION_DURATION) 1

/-- The control point of `startBallAnimation`:
`{ x: (startPos.x + target.x) / 2, y: 10 }`. -/
def controlPos (target : ℚ × ℚ) : ℚ × ℚ :=
  ((kickStartPos.1 + target.1) / 2, 10)

/-- The quadratic Bézier sample of `animateBall`:
`(1-t)^2 * p0 + 2 (1-t) t * c + t^2 * p1`, componentwise. -/
def quadBezier (p0 c p1 : ℚ × ℚ) (t : ℚ) : ℚ × ℚ :=
  ((1 - t) ^ 2 * p0.1 + 2 * (1 - t) * t * c.1 + t ^ 2 * p1.1,
   (1 - t) ^ 2 * p0.2 + 2 * (1 - t) * t * c.2 + t ^ 2 * p1.2)

/-- Ball position of the kick animation for option `index` at `elapsed`
ms: the target is `GOAL_POSITIONS[index % GOAL_POSITIONS.length]`, and the
position is the Bézier sample at the clamped progress parameter. -/
def ballPosAt (index : Nat) (elapsed : ℚ) : ℚ × ℚ :=
  let target := GOAL_POSITIONS.getD (index % GOAL_POSITIONS.length) (0, 0)
  quadBezier kickStartPos (controlPos target) target (progressAt elapsed)

/-- The `GameState` union type of the source. -/
inductive GState where
  | menu
  | playing
  | finished
  deriving DecidableEq, Repr

/-- The mutable state of the component: every `useState`/`useRef` cell of
the source, plus explicit representations of in-flight asynchronous work.
`chargeActive` models `chargeIntervalRef.current !== null`;
`pendingKicks` holds the `selectedAnswer` of each started kick animation
whose `finishKick` has not yet run; `pendingNext` counts scheduled
1500 ms timeouts of `finishKick` that have not yet fired.  `feedback` is
`some true` for correct, `some false` for incorrect. -/
structure GameSt where
  gameState : GState
  score : Nat
  questionIndex : Nat
  currentQuestion : Option Question
  ballPosition : ℚ × ℚ
  isKicking : Bool
  kickerFrame : Nat
  feedback : Option Bool
  showKicker : Bool
  kickPower : Nat
  activeTargetIndex : Nat
  isCharging : Bool
  chargeActive : Bool
  isMuted : Bool
  isPaused : Bool
  showSidebar : Bool
  showHelp : Bool
  elapsedSeconds : Nat
  pendingKicks : List Nat
  pendingNext : Nat
  deriving DecidableEq, Repr

/-- `generateQuestion` as a state update: stores the fresh question and
resets ball, feedback, kicking flag, kicker frame and kicker
visibility. -/
def generateQuestionSt (r1 r2 : Nat) (draws shuffled : List Nat)
    (s : GameSt) : GameSt :=
  { s with currentQuestion := some (mkQuestion r1 r2 draws shuffled),
           ballPosition := kickStartPos, feedback := none,
           isKicking := false, kickerFrame := 1, showKicker := true }

/-- `handleAnswer`: ignored unless not kicking, not paused and playing;
otherwise marks the kick as started (`setIsKicking(true)`,
`setKickerFrame(2)`) and puts the selected value in flight (the 100 ms
frame timeout, `startBallAnimation` and its requestAnimationFrame chain
are the in-flight work whose completion is the `finishKick` event).  The
`index` argument only determines the animation target, handled by
`ballPosAt`. -/
def handleAnswer (selected : Nat) (_index : Nat) (s : GameSt) : GameSt :=
  if s.isKicking = false ∧ s.isPaused = false ∧ s.gameState = .playing then
    { s with isKicking := true, kickerFrame := 2,
             pendingKicks := selected :: s.pendingKicks }
  else s

/-- `handleKeyDown` for a non-repeat Space press: guarded exactly like the
source; starts charging, resets the power and the active target, and
(re)starts the 40 ms charge interval. -/
def handleKeyDown (s : GameSt) : GameSt :=
  if s.isKicking = false ∧ s.isPaused = false ∧ s.gameState = .playing then
    { s with isCharging := true, kickPower := 0, activeTargetIndex := 0,
             chargeActive := true }
  else s

/-- One firing of the charge interval callback.  The source callback has
no pause or phase guard: it advances the power and recomputes the active
target from the updated power.  (The `step` function below only delivers
this event while `chargeActive` is set, i.e. while the interval
exists.) -/
def chargeTickFn (s : GameSt) : GameSt :=
  let p := chargeStep s.kickPower
  { s with kickPower := p, activeTargetIndex := tierIndex p }

/-- `handleKeyUp` for Space: guarded like the source; stops charging and
the interval, maps the accumulated power to a target index, selects the
displayed option at that index (when it exists) through `handleAnswer`,
and resets the power. -/
def handleKeyUp (s : GameSt) : GameSt :=
  if s.isKicking = false ∧ s.isPaused = false ∧ s.gameState = .playing then
    let s1 := { s with isCharging := false, chargeActive := false }
    let targetIndex := tierIndex s1.kickPower
    let s2 := match s1.currentQuestion with
      | some q =>
        if targetIndex < q.options.length then
          handleAnswer (q.options.getD targetIndex 0) targetIndex s1
        else s1
      | none => s1
    { s2 with kickPower := 0 }
  else s

/-- `finishKick`: runs when a kick animation completes.  Compares the
selected value with the current question's answer (`selectedAnswer ===
currentQuestion?.answer`), updates score and feedback accordingly, and
schedules the 1500 ms advance timeout in either case. -/
def finishKick (selected : Nat) (s : GameSt) : GameSt :=
  let isCorrect : Bool := match s.currentQuestion with
    | some q => selected == q.answer
    | none => false
  if isCorrect then
    { s with score := s.score + 1, feedback := some true,
             pendingNext := s.pendingNext + 1 }
  else
    { s with feedback := some false, pendingNext := s.pendingNext + 1 }

/-- The body of the 1500 ms timeout scheduled by `finishKick`: advance to
the next question, or transition to `finished` (and pause) when the
question index has reached the bound. -/
def questionTimeout (r1 r2 : Nat) (draws shuffled : List Nat)
    (s : GameSt) : GameSt :=
  if s.questionIndex < QUESTION_COUNT - 1 then
    generateQuestionSt r1 r2 draws shuffled
      { s with questionIndex := s.questionIndex + 1 }
  else
    { s with gameState := .finished, isPaused := true }

/-- `startGame`: playing phase, zeroed score / index / timer, fresh
question, unpaused, help hidden. -/
def startGameFn (r1 r2 : Nat) (draws shuffled : List Nat)
    (s : GameSt) : GameSt :=
  generateQuestionSt r1 r2 draws shuffled
    { s with gameState := .playing, score := 0, questionIndex := 0,
             elapsedSeconds := 0, isPaused := false, showHelp := false }

/-- `resetRound`: like the source, resets phase, score, index, timer,
feedback, kick flags, ball and power, generates a fresh question, and
unpauses.  It does not touch `chargeActive`, `pendingKicks` or
`pendingNext`: the source clears no interval and cancels no timeout or
animation frame here. -/
def resetRoundFn (r1 r2 : Nat) (draws shuffled : List Nat)
    (s : GameSt) : GameSt :=
  generateQuestionSt r1 r2 draws shuffled
    { s with gameState := .playing, score := 0, questionIndex := 0,
             elapsedSeconds := 0, feedback := none, isKicking := false,
             kickerFrame := 1, showKicker := true,
             ballPosition := kickStartPos, isPaused := false,
             showSidebar := false, kickPower := 0 }

/-- `togglePause`: flips the pause flag and syncs the sidebar to it. -/
def togglePauseFn (s : GameSt) : GameSt :=
  { s with isPaused := !s.isPaused, showSidebar := !s.isPaused }

/-- `toggleMute` (audio side effects are outside the model). -/
def toggleMuteFn (s : GameSt) : GameSt :=
  { s with isMuted := !s.isMuted }

/-- `openHelp`: shows the help overlay, pauses, shows the sidebar. -/
def openHelpFn (s : GameSt) : GameSt :=
  { s with showHelp := true, isPaused := true, showSidebar := true }

/-- `closeHelp`: hides help, then starts the game when still in the menu
phase or unpauses otherwise, and hides the sidebar. -/
def closeHelpFn (r1 r2 : Nat) (draws shuffled : List Nat)
    (s : GameSt) : GameSt :=
  let s1 := { s with showHelp := false }
  let s2 := if s1.gameState = .menu then startGameFn r1 r2 draws shuffled s1
            else { s1 with isPaused := false }
  { s2 with showSidebar := false }

/-- One firing of the one-second timer interval; the source effect only
keeps this interval while unpaused and playing. -/
def timerTickFn (s : GameSt) : GameSt :=
  if s.isPaused = false ∧ s.gameState = .playing then
    { s with elapsedSeconds := s.elapsedSeconds + 1 }
  else s

/-- The events that can drive the component: user input (Space down / up,
the sidebar and help buttons, the restart button), and the asynchronous
callbacks (charge interval tick, timer tick, kick-animation completion,
1500 ms question-advance timeout).  Events that generate a question carry
the random draws it consumes. -/
inductive Ev where
  | keyDown
  | keyUp
  | chargeTick
  | timerTick
  | kickFinish (v : Nat)
  | nextTick (r1 r2 : Nat) (draws shuffled : List Nat)
  | togglePause
  | toggleMute
  | openHelp
  | closeHelp (r1 r2 : Nat) (draws shuffled : List Nat)
  | resetRound (r1 r2 : Nat) (draws shuffled : List Nat)
  deriving DecidableEq, Repr

/-- The deterministic step function.  Callback events only have an effect
when the corresponding callback exists: a charge tick requires the
interval to be running, a kick completion requires that kick to be in
flight, an advance timeout requires a scheduled timeout. -/
def step (e : Ev) (s : GameSt) : GameSt :=
  match e with
  | .keyDown => handleKeyDown s
  | .keyUp => handleKeyUp s
  | .chargeTick => if s.chargeActive then chargeTickFn s else s
  | .timerTick => timerTickFn s
  | .kickFinish v =>
    if v ∈ s.pendingKicks then
      finishKick v { s with pendingKicks := s.pendingKicks.erase v }
    else s
  | .nextTick r1 r2 draws shuffled =>
    if 0 < s.pendingNext then
      questionTimeout r1 r2 draws shuffled
        { s with pendingNext := s.pendingNext - 1 }
    else s
  | .togglePause => togglePauseFn s
  | .toggleMute => toggleMuteFn s
  | .openHelp => openHelpFn s
  | .closeHelp r1 r2 draws shuffled => closeHelpFn r1 r2 draws shuffled s
  | .resetRound r1 r2 draws shuffled => resetRoundFn r1 r2 draws shuffled s

/-- The component state right after mount: the `useState` initial values,
then the mount effect (`generateQuestion(); setShowHelp(true);
setIsPaused(true)`). -/
def initState (r1 r2 : Nat) (draws shuffled : List Nat) : GameSt :=
  generateQuestionSt r1 r2 draws shuffled
    { gameState := .menu, score := 0, questionIndex := 0,
      currentQuestion := none, ballPosition := kickStartPos,
      isKicking := false, kickerFrame := 1, feedback := none,
      showKicker := true, kickPower := 0, activeTargetIndex := 0,
      isCharging := false, chargeActive := false, isMuted := false,
      isPaused := true, showSidebar := false, showHelp := true,
      elapsedSeconds := 0, pendingKicks := [], pendingNext := 0 }

/-- Run a list of events from a state. -/
def runTrace (evs : List Ev) (s : GameSt) : GameSt :=
  evs.foldl (fun t e => step e t) s

/-- One step of the system, as a relation. -/
def GStep (s s' : GameSt) : Prop := ∃ e, s' = step e s

/-- A state is reachable when some sequence of events leads to it from
the mounted component (for some outcomes of the random draws). -/
def Reachable (s : GameSt) : Prop :=
  ∃ r1 r2 draws shuffled,
    Relation.ReflTransGen GStep (initState r1 r2 draws shuffled) s

/-- The option loop only ever appends to the accumulated list. -/
theorem genOptionsAux_append (answer : Nat) (draws : List Nat) :
    ∀ opts : List Nat, ∃ extra, genOptionsAux answer opts draws = opts ++ extra := by
  induction draws with
  | nil => intro opts; exact ⟨[], by simp [genOptionsAux]⟩
  | cons r rest ih =>
    intro opts
    by_cases h3 : opts.length < 3
    · by_cases hw : wrongDraw r ≠ answer ∧ wrongDraw r ∉ opts
      · obtain ⟨extra, he⟩ := ih (opts ++ [wrongDraw r])
        refine ⟨wrongDraw r :: extra, ?_⟩
        simp only [genOptionsAux, if_pos h3, if_pos hw, he, List.append_assoc,
          List.singleton_append]
      · obtain ⟨extra, he⟩ := ih opts
        refine ⟨extra, ?_⟩
        simp only [genOptionsAux, if_pos h3, if_neg hw, he]
    · exact ⟨[], by simp [genOptionsAux, if_neg h3]⟩

/-- The option loop preserves distinctness: it only adds candidates that
are not yet present. -/
theorem genOptionsAux_nodup (answer : Nat) (draws : List Nat) :
    ∀ opts : List Nat, opts.Nodup → (genOptionsAux answer opts draws).Nodup := by
  induction draws with
  | nil => intro opts h; simpa [genOptionsAux] using h
  | cons r rest ih =>
    intro opts h
    by_cases h3 : opts.length < 3
    · by_cases hw : wrongDraw r ≠ answer ∧ wrongDraw r ∉ opts
      · rw [genOptionsAux, if_pos h3, if_pos hw]
        exact ih _ (by simp [List.nodup_append, h, hw.2])
      · rw [genOptionsAux, if_pos h3, if_neg hw]
        exact ih _ h
    · rw [genOptionsAux, if_neg h3]; exact h

/-- Every element the option loop produces is either an initial element
or a distractor draw different from the answer. -/
theorem genOptionsAux_elem (answer : Nat) (draws : List Nat) :
    ∀ opts : List Nat, ∀ x ∈ genOptionsAux answer opts draws,
      x ∈ opts ∨ ∃ r, x = wrongDraw r ∧ x ≠ answer := by
  induction draws with
  | nil => intro opts x hx; exact Or.inl (by simpa [genOptionsAux] using hx)
  | cons r rest ih =>
    intro opts x hx
    by_cases h3 : opts.length < 3
    · by_cases hw : wrongDraw r ≠ answer ∧ wrongDraw r ∉ opts
      · rw [genOptionsAux, if_pos h3, if_pos hw] at hx
        rcases ih _ x hx with hmem | hdraw
        · rcases List.mem_append.mp hmem with h' | h'
          · exact Or.inl h'
          · have hxw : x = wrongDraw r := by simpa using h'
            exact Or.inr ⟨r, hxw, by rw [hxw]; exact hw.1⟩
        · exact Or.inr hdraw
      · rw [genOptionsAux, if_pos h3, if_neg hw] at hx
        exact ih _ x hx
    · rw [genOptionsAux, if_neg h3] at hx
      exact Or.inl hx

/-- The shuffled option list of a generated question is a permutation of
the list produced by the option loop. -/
theorem mkQuestion_options_perm (r1 r2 : Nat) (draws shuffled : List Nat) :
    (mkQuestion r1 r2 draws shuffled).options.Perm
      (genOptionsAux (operandDraw r1 + operandDraw r2)
        [operandDraw r1 + operandDraw r2] draws) := by
  unfold mkQuestion
  simp only []
  split
  · assumption
  · exact List.Perm.refl _

/-- C1: every generated question satisfies `answer = num1 + num2` with
operands in 1–10, its (shuffled) option list is duplicate-free, contains
the answer exactly once, and — whenever the generation loop completed,
i.e. three options were produced — consists of the answer plus two
distractors that differ from the answer and from each other. -/
theorem c1_generated_question (r1 r2 : Nat) (draws shuffled : List Nat)
    (q : Question) (hq : q = mkQuestion r1 r2 draws shuffled)
    (h3 : q.options.length = 3) :
    q.answer = q.num1 + q.num2 ∧
    1 ≤ q.num1 ∧ q.num1 ≤ 10 ∧ 1 ≤ q.num2 ∧ q.num2 ≤ 10 ∧
    q.options.Nodup ∧ q.answer ∈ q.options ∧
    q.options.count q.answer = 1 ∧
    ∃ d1 d2, q.options.Perm [q.answer, d1, d2] ∧
      d1 ≠ q.answer ∧ d2 ≠ q.answer ∧ d1 ≠ d2 := by
  subst hq
  have hperm := mkQuestion_options_perm r1 r2 draws shuffled
  have hanswer : (mkQuestion r1 r2 draws shuffled).answer
      = operandDraw r1 + operandDraw r2 := rfl
  have hnum1 : (mkQuestion r1 r2 draws shuffled).num1 = operandDraw r1 := rfl
  have hnum2 : (mkQuestion r1 r2 draws shuffled).num2 = operandDraw r2 := rfl
  set answer := operandDraw r1 + operandDraw r2 with hansdef
  set base := genOptionsAux answer [answer] draws with hbase
  have hnodup_base : base.Nodup :=
    genOptionsAux_nodup answer draws [answer] (by simp)
  obtain ⟨extra, hext⟩ := genOptionsAux_append answer draws [answer]
  have hnodup : (mkQuestion r1 r2 draws shuffled).options.Nodup :=
    hperm.nodup_iff.mpr hnodup_base
  have hmem : answer ∈ (mkQuestion r1 r2 draws shuffled).options := by
    refine hperm.mem_iff.mpr ?_
    rw [hbase, hext]; simp
  have hcount : (mkQuestion r1 r2 draws shuffled).options.count answer = 1 :=
    List.count_eq_one_of_mem hnodup hmem
  have hlen_base : base.length = 3 := by
    have := hperm.length_eq
    omega
  have hextra : extra.length = 2 := by
    have : base.length = 1 + extra.length := by rw [hbase, hext]; simp; omega
    omega
  obtain ⟨d1, d2, hd⟩ : ∃ d1 d2, extra = [d1, d2] := by
    match extra, hextra with
    | [d1, d2], _ => exact ⟨d1, d2, rfl⟩
  have hbase_eq : base = [answer, d1, d2] := by rw [hbase, hext, hd]; rfl
  have hnodup3 : ([answer, d1, d2] : List Nat).Nodup := hbase_eq ▸ hnodup_base
  have hne1 : d1 ≠ answer := by
    intro h; rw [h] at hnodup3; simp at hnodup3
  have hne2 : d2 ≠ answer := by
    intro h; rw [h] at hnodup3; simp at hnodup3
  have hne3 : d1 ≠ d2 := by
    intro h; rw [h] at hnodup3; simp at hnodup3
  have hmod1 : r1 % 10 < 10 := Nat.mod_lt _ (by norm_num)
  have hmod2 : r2 % 10 < 10 := Nat.mod_lt _ (by norm_num)
  refine ⟨rfl, ?_, ?_, ?_, ?_, hnodup, hmem, hcount,
    d1, d2, ?_, hne1, hne2, hne3⟩
  · simp [hnum1, operandDraw]
  · simp only [hnum1, operandDraw]; omega
  · simp [hnum2, operandDraw]
  · simp only [hnum2, operandDraw]; omega
  · rw [hanswer, ← hbase_eq]; exact hperm

/-- C1 witness: a concrete generated question. -/
theorem c1_generated_question_witness :
    (mkQuestion 0 0 [2, 4] [3, 2, 5]).options.Nodup ∧
    (mkQuestion 0 0 [2, 4] [3, 2, 5]).answer
      ∈ (mkQuestion 0 0 [2, 4] [3, 2, 5]).options ∧
    (mkQuestion 0 0 [2, 4] [3, 2, 5]).options.count
      (mkQuestion 0 0 [2, 4] [3, 2, 5]).answer = 1 :=
  ⟨(c1_generated_question 0 0 [2, 4] [3, 2, 5] _ rfl (by decide)).2.2.2.2.2.1,
   (c1_generated_question 0 0 [2, 4] [3, 2, 5] _ rfl (by decide)).2.2.2.2.2.2.1,
   (c1_generated_question 0 0 [2, 4] [3, 2, 5] _ rfl (by decide)).2.2.2.2.2.2.2.1⟩

/-- C10: in every generated question, the answer lies in 2–20, and every
option (answer or distractor) lies in 1–20, even though only the operands
are bounded by the spec. -/
theorem c10_option_bounds (r1 r2 : Nat) (draws shuffled : List Nat)
    (q : Question) (hq : q = mkQuestion r1 r2 draws shuffled) :
    2 ≤ q.answer ∧ q.answer ≤ 20 ∧ ∀ x ∈ q.options, 1 ≤ x ∧ x ≤ 20 := by
  subst hq
  have hperm := mkQuestion_options_perm r1 r2 draws shuffled
  have hanswer : (mkQuestion r1 r2 draws shuffled).answer
      = operandDraw r1 + operandDraw r2 := rfl
  have hmod1 : r1 % 10 < 10 := Nat.mod_lt _ (by norm_num)
  have hmod2 : r2 % 10 < 10 := Nat.mod_lt _ (by norm_num)
  have hans_lb : 2 ≤ operandDraw r1 + operandDraw r2 := by
    simp only [operandDraw]; omega
  have hans_ub : operandDraw r1 + operandDraw r2 ≤ 20 := by
    simp only [operandDraw]; omega
  refine ⟨by rw [hanswer]; exact hans_lb, by rw [hanswer]; exact hans_ub, ?_⟩
  intro x hx
  have hx' := hperm.subset hx
  rcases genOptionsAux_elem _ draws _ x hx' with hmem | ⟨r, hr, _⟩
  · have : x = operandDraw r1 + operandDraw r2 := by simpa using hmem
    subst this; exact ⟨by omega, hans_ub⟩
  · have hrm : r % 20 < 20 := Nat.mod_lt _ (by norm_num)
    subst hr; simp only [wrongDraw]; omega

/-- C10 witness: the bounds hold on a concrete generated question and a
concrete member of its options. -/
theorem c10_option_bounds_witness :
    2 ≤ (mkQuestion 0 0 [2, 4] [3, 2, 5]).answer ∧
    (1 ≤ 3 ∧ 3 ≤ 20) :=
  ⟨(c10_option_bounds 0 0 [2, 4] [3, 2, 5] _ rfl).1,
   (c10_option_bounds 0 0 [2, 4] [3, 2, 5] _ rfl).2.2 3 (by decide)⟩

/-- The question of the worked example: operands 3 and 4 (draws 2 and 3),
options shuffled to `[7, 12, 3]`. -/
def q34 : Question := mkQuestion 2 3 [11, 2] [7, 12, 3]

/-- A playing-phase state showing the example question. -/
def s34 : GameSt :=
  { initState 2 3 [11, 2] [7, 12, 3] with
      gameState := .playing, isPaused := false }

/-- A playing-phase state holding the example question with an
accumulated power of 50. -/
def sC2 : GameSt := { s34 with kickPower := 50 }

/-- C2: the release mapping is deterministic — power at most 33 selects
index 0 (near), 34–66 selects index 1 (mid), above 66 selects index 2
(far) — and releasing in a chargeable state puts the displayed option at
that position in flight as the selected answer. -/
theorem c2_power_tier_selection :
    (∀ p : Nat, (p ≤ 33 → tierIndex p = 0) ∧
       (34 ≤ p → p ≤ 66 → tierIndex p = 1) ∧
       (66 < p → tierIndex p = 2)) ∧
    (∀ (s : GameSt) (q : Question), s.currentQuestion = some q →
       s.isKicking = false → s.isPaused = false → s.gameState = .playing →
       tierIndex s.kickPower < q.options.length →
       (handleKeyUp s).pendingKicks
         = q.options.getD (tierIndex s.kickPower) 0 :: s.pendingKicks) := by
  constructor
  · intro p
    refine ⟨?_, ?_, ?_⟩
    · intro h; unfold tierIndex
      rw [if_neg (by omega), if_neg (by omega)]
    · intro h1 h2; unfold tierIndex
      rw [if_neg (by omega), if_pos (by omega)]
    · intro h; unfold tierIndex
      rw [if_pos (by omega)]
  · intro s q hq hk hp hg hlt
    unfold handleKeyUp
    rw [if_pos ⟨hk, hp, hg⟩]
    simp only [hq, hlt, if_pos]
    unfold handleAnswer
    rw [if_pos ⟨hk, hp, hg⟩]

/-- C2 witness: with power 50 the mid tier (index 1) is selected, and in
a concrete state the option displayed at index 1 goes in flight. -/
theorem c2_power_tier_selection_witness :
    tierIndex 50 = 1 ∧ (handleKeyUp sC2).pendingKicks = [12] := by
  refine ⟨(c2_power_tier_selection.1 50).2.1 (by norm_num) (by norm_num), ?_⟩
  have h := c2_power_tier_selection.2 sC2 q34 rfl rfl rfl rfl (by decide)
  exact h.trans (by decide)

/-- Power after `n` ticks is `4 n` clamped at 100. -/
theorem chargePowerAfter_eq (n : Nat) :
    chargePowerAfter n = min (4 * n) 100 := by
  induction n with
  | zero => simp [chargePowerAfter]
  | succ n ih =>
    simp only [chargePowerAfter, chargeStep, ih]
    split <;> omega

/-- C6: across any sequence of charge ticks of a hold, power is
monotonically non-decreasing and stays within 0–100, and a release before
any tick has fired carries power 0, which resolves to the near tier. -/
theorem c6_power_monotone_clamped :
    (∀ n : Nat, chargePowerAfter n ≤ chargePowerAfter (n + 1)) ∧
    (∀ n : Nat, 0 ≤ chargePowerAfter n ∧ chargePowerAfter n ≤ 100) ∧
    chargePowerAfter 0 = 0 ∧
    tierIndex (chargePowerAfter 0) = 0 := by
  refine ⟨?_, ?_, rfl, rfl⟩
  · intro n
    rw [chargePowerAfter_eq, chargePowerAfter_eq]
    omega
  · intro n
    rw [chargePowerAfter_eq]
    omega

/-- C8: the kick animation has the fixed 800 ms duration; the progress
parameter is `elapsed / duration` clamped to `[0, 1]`; the sampled ball
position is the quadratic Bézier through the control point whose `x` is
the midpoint of start and target and whose `y` of 10 lies above both (an
arc); the curve starts at the ball start position and, once the duration
has elapsed, lands exactly on the chosen tier's goal position. -/
theorem c8_kick_animation :
    ANIMATION_DURATION = 800 ∧
    (∀ e : ℚ, 0 ≤ e → 0 ≤ progressAt e ∧ progressAt e ≤ 1) ∧
    (∀ e : ℚ, 0 ≤ e → e ≤ ANIMATION_DURATION →
       progressAt e = e / ANIMATION_DURATION) ∧
    (∀ (i : Nat) (e : ℚ),
       ballPosAt i e =
         quadBezier kickStartPos
           (controlPos (GOAL_POSITIONS.getD (i % GOAL_POSITIONS.length) (0, 0)))
           (GOAL_POSITIONS.getD (i % GOAL_POSITIONS.length) (0, 0))
           (progressAt e)) ∧
    (∀ tgt : ℚ × ℚ, (controlPos tgt).1 = (kickStartPos.1 + tgt.1) / 2 ∧
       (controlPos tgt).2 = 10) ∧
    (∀ tgt ∈ GOAL_POSITIONS,
       (controlPos tgt).2 < kickStartPos.2 ∧ (controlPos tgt).2 < tgt.2) ∧
    (∀ i : Nat, ballPosAt i 0 = kickStartPos) ∧
    (∀ (i : Nat) (e : ℚ), ANIMATION_DURATION ≤ e →
       ballPosAt i e = GOAL_POSITIONS.getD (i % GOAL_POSITIONS.length) (0, 0)) := by
  have hdur : ANIMATION_DURATION = 800 := rfl
  have hbez0 : ∀ p0 c p1 : ℚ × ℚ, quadBezier p0 c p1 0 = p0 := by
    intro p0 c p1
    unfold quadBezier
    refine Prod.ext ?_ ?_ <;> simp
  have hbez1 : ∀ p0 c p1 : ℚ × ℚ, quadBezier p0 c p1 1 = p1 := by
    intro p0 c p1
    unfold quadBezier
    refine Prod.ext ?_ ?_ <;> simp
  refine ⟨rfl, ?_, ?_, fun i e => rfl, fun tgt => ⟨rfl, rfl⟩, ?_, ?_, ?_⟩
  · intro e he
    unfold progressAt ANIMATION_DURATION
    constructor
    · exact le_min (by positivity) (by norm_num)
    · exact min_le_right _ _
  · intro e _ hle
    unfold progressAt
    refine min_eq_left ?_
    rw [div_le_one (by rw [hdur]; norm_num)]
    exact hle
  · intro tgt htgt
    simp only [GOAL_POSITIONS, List.mem_cons, List.not_mem_nil, or_false] at htgt
    rcases htgt with h | h | h <;> subst h <;>
      exact ⟨by norm_num [controlPos, kickStartPos],
             by norm_num [controlPos, kickStartPos]⟩
  · intro i
    have hp0 : progressAt 0 = 0 := by
      unfold progressAt
      rw [zero_div]
      exact min_eq_left (by norm_num)
    unfold ballPosAt
    rw [hp0, hbez0]
  · intro i e he
    have hp1 : progressAt e = 1 := by
      unfold progressAt
      refine min_eq_right ?_
      rw [le_div_iff₀ (by rw [hdur]; norm_num)]
      rw [hdur] at he; linarith
    unfold ballPosAt
    rw [hp1, hbez1]

/-- C8 witness: the clamping and landing facts at concrete inputs. -/
theorem c8_kick_animation_witness :
    (0 ≤ progressAt 400 ∧ progressAt 400 ≤ 1) ∧
    ballPosAt 2 800 = (90, 50) :=
  ⟨c8_kick_animation.2.1 400 (by norm_num),
   (c8_kick_animation.2.2.2.2.2.2.2 2 800 (by norm_num [ANIMATION_DURATION])).trans
     (by norm_num [GOAL_POSITIONS])⟩

/-- C3: when a kick animation completes, a selected value equal to the
current question's answer increments the score by exactly one and shows
success feedback, any other value leaves the score unchanged and shows
failure feedback; in particular the worked example — operands 3 and 4,
answer 7, options `[7, 12, 3]`, selection at index 0 — is correct and
scores one point.  The post-feedback timeout is the fixed 1500 ms delay,
and its body either advances the question index and generates the next
question, or — when the index has reached the bound — moves the phase to
`finished`. -/
theorem c3_kick_outcome :
    (∀ (s : GameSt) (q : Question) (v : Nat), s.currentQuestion = some q →
       (v = q.answer →
          (finishKick v s).score = s.score + 1 ∧
          (finishKick v s).feedback = some true) ∧
       (v ≠ q.answer →
          (finishKick v s).score = s.score ∧
          (finishKick v s).feedback = some false)) ∧
    (q34.num1 = 3 ∧ q34.num2 = 4 ∧ q34.answer = 7 ∧
     q34.options = [7, 12, 3] ∧
     (finishKick (q34.options.getD 0 0) s34).score = s34.score + 1 ∧
     (finishKick (q34.options.getD 0 0) s34).feedback = some true) ∧
    FEEDBACK_DELAY = 1500 ∧
    (∀ (s : GameSt) (r1 r2 : Nat) (draws shuffled : List Nat),
       (s.questionIndex < QUESTION_COUNT - 1 →
          (questionTimeout r1 r2 draws shuffled s).questionIndex
            = s.questionIndex + 1 ∧
          (questionTimeout r1 r2 draws shuffled s).currentQuestion
            = some (mkQuestion r1 r2 draws shuffled) ∧
          (questionTimeout r1 r2 draws shuffled s).gameState = s.gameState) ∧
       (¬ s.questionIndex < QUESTION_COUNT - 1 →
          (questionTimeout r1 r2 draws shuffled s).gameState = .finished ∧
          (questionTimeout r1 r2 draws shuffled s).questionIndex
            = s.questionIndex)) := by
  refine ⟨?_, by decide, rfl, ?_⟩
  · intro s q v hq
    constructor
    · intro hv
      constructor <;> simp [finishKick, hq, hv]
    · intro hv
      constructor <;> simp [finishKick, hq, hv]
  · intro s r1 r2 draws shuffled
    constructor
    · intro hlt
      refine ⟨?_, ?_, ?_⟩ <;>
        simp [questionTimeout, if_pos hlt, generateQuestionSt]
    · intro hge
      constructor <;> simp [questionTimeout, if_neg hge]

/-- C3 witness: the outcome and advance behaviour at concrete inputs. -/
theorem c3_kick_outcome_witness :
    (finishKick 7 s34).score = s34.score + 1 ∧
    (questionTimeout 0 0 [2, 4] [2, 3, 5] s34).questionIndex
      = s34.questionIndex + 1 :=
  ⟨((c3_kick_outcome.1 s34 q34 7 rfl).1 (by decide)).1,
   ((c3_kick_outcome.2.2.2 s34 0 0 [2, 4] [2, 3, 5]).1 (by decide)).1⟩

/-- A state with a kick animation in flight, used to exercise the input
guards. -/
def sKick : GameSt := { s34 with isKicking := true, pendingKicks := [7] }

/-- C5 (guard part): any selection, hold start or hold release arriving
while a kick is in flight, while paused, or outside the playing phase is
ignored and leaves the state completely unchanged. -/
theorem c5_blocked_input_ignored (s : GameSt) (v i : Nat)
    (h : s.isKicking = true ∨ s.isPaused = true ∨ s.gameState ≠ .playing) :
    handleAnswer v i s = s ∧ handleKeyDown s = s ∧ handleKeyUp s = s := by
  have hg : ¬ (s.isKicking = false ∧ s.isPaused = false ∧
      s.gameState = .playing) := by
    rcases h with h | h | h <;> simp [h]
  refine ⟨?_, ?_, ?_⟩
  · unfold handleAnswer; rw [if_neg hg]
  · unfold handleKeyDown; rw [if_neg hg]
  · unfold handleKeyUp; rw [if_neg hg]

/-- C5 witness: the guard at a concrete kicking state. -/
theorem c5_blocked_input_ignored_witness :
    handleAnswer 12 1 sKick = sKick ∧ handleKeyUp sKick = sKick :=
  ⟨(c5_blocked_input_ignored sKick 12 1 (Or.inl rfl)).1,
   (c5_blocked_input_ignored sKick 12 1 (Or.inl rfl)).2.2⟩

/-- A short real-time-realisable schedule disproving the at-most-one-kick
guarantee: launch a kick, pause, reset the round while the kick animation
is still in flight (the reset clears `isKicking` but cancels nothing),
then launch a second kick. -/
def twoKicksTrace : List Ev :=
  [.closeHelp 0 0 [2, 4] [2, 3, 5], .keyDown, .keyUp, .togglePause,
   .resetRound 0 0 [2, 4] [2, 3, 5], .keyDown, .keyUp]

/-- C5 counterexample: after the schedule above, two kick animations are
simultaneously in flight, refuting the headline claim that at most one
kick is ever in flight. -/
theorem c5_two_kicks_counterexample :
    (runTrace twoKicksTrace (initState 0 0 [2, 4] [2, 3, 5])).pendingKicks.length
      = 2 ∧
    (runTrace twoKicksTrace (initState 0 0 [2, 4] [2, 3, 5])).gameState
      = .playing := by
  decide

/-- The inductive invariant of the round controller: the question index
never passes the bound, and the finished phase is only entered at the
bound. -/
def Inv (s : GameSt) : Prop :=
  s.questionIndex ≤ QUESTION_COUNT - 1 ∧
  (s.gameState = .finished → s.questionIndex = QUESTION_COUNT - 1)

/-- The invariant transports along steps that change neither the question
index nor the phase. -/
theorem inv_of_frame {s t : GameSt} (h : Inv s)
    (hq : t.questionIndex = s.questionIndex)
    (hg : t.gameState = s.gameState) : Inv t := by
  obtain ⟨h1, h2⟩ := h
  constructor
  · rw [hq]; exact h1
  · intro hf; rw [hq]; exact h2 (by rw [← hg]; exact hf)

/-- Every event preserves the invariant. -/
theorem step_inv (e : Ev) {s : GameSt} (h : Inv s) : Inv (step e s) := by
  cases e with
  | keyDown =>
    refine inv_of_frame h ?_ ?_ <;>
      (simp only [step]; unfold handleKeyDown; (repeat' split) <;> rfl)
  | keyUp =>
    refine inv_of_frame h ?_ ?_ <;>
      (simp only [step]; unfold handleKeyUp handleAnswer; dsimp only;
       (repeat' split) <;> rfl)
  | chargeTick =>
    refine inv_of_frame h ?_ ?_ <;>
      (simp only [step]; (repeat' split) <;> rfl)
  | timerTick =>
    refine inv_of_frame h ?_ ?_ <;>
      (simp only [step]; unfold timerTickFn; (repeat' split) <;> rfl)
  | kickFinish v =>
    refine inv_of_frame h ?_ ?_ <;>
      (simp only [step]; unfold finishKick; dsimp only;
       (repeat' split) <;> rfl)
  | nextTick r1 r2 draws shuffled =>
    obtain ⟨h1, h2⟩ := h
    simp only [step]
    split
    · unfold questionTimeout
      split
      · next hlt =>
        have hlt' : s.questionIndex < QUESTION_COUNT - 1 := hlt
        constructor
        · show s.questionIndex + 1 ≤ QUESTION_COUNT - 1
          omega
        · intro hf
          have hfin : s.gameState = .finished := hf
          have h9 := h2 hfin
          show s.questionIndex + 1 = QUESTION_COUNT - 1
          omega
      · next hge =>
        have hge' : ¬ s.questionIndex < QUESTION_COUNT - 1 := hge
        constructor
        · show s.questionIndex ≤ QUESTION_COUNT - 1
          exact h1
        · intro _
          show s.questionIndex = QUESTION_COUNT - 1
          omega
    · exact ⟨h1, h2⟩
  | togglePause => exact inv_of_frame h rfl rfl
  | toggleMute => exact inv_of_frame h rfl rfl
  | openHelp => exact inv_of_frame h rfl rfl
  | closeHelp r1 r2 draws shuffled =>
    simp only [step]
    unfold closeHelpFn
    dsimp only
    split
    · constructor
      · show (0 : Nat) ≤ QUESTION_COUNT - 1
        simp [QUESTION_COUNT]
      · intro hf
        have : GState.playing = GState.finished := hf
        simp at this
    · exact inv_of_frame h rfl rfl
  | resetRound r1 r2 draws shuffled =>
    constructor
    · show (0 : Nat) ≤ QUESTION_COUNT - 1
      simp [QUESTION_COUNT]
    · intro hf
      have : GState.playing = GState.finished := hf
      simp at this

/-- The invariant holds in every reachable state. -/
theorem reachable_inv {s : GameSt} (h : Reachable s) : Inv s := by
  obtain ⟨r1, r2, draws, shuffled, hsteps⟩ := h
  induction hsteps with
  | refl =>
    constructor
    · show (0 : Nat) ≤ QUESTION_COUNT - 1
      simp [QUESTION_COUNT]
    · intro hf
      have : GState.menu = GState.finished := hf
      simp at this
  | tail _ hstep ih =>
    obtain ⟨e, rfl⟩ := hstep
    exact step_inv e ih

/-- Running a concrete event list yields states reachable from its start
state. -/
theorem runTrace_reachable (evs : List Ev) (s : GameSt) :
    Relation.ReflTransGen GStep s (runTrace evs s) := by
  induction evs generalizing s with
  | nil => exact Relation.ReflTransGen.refl
  | cons e evs ih =>
    exact Relation.ReflTransGen.head ⟨e, rfl⟩ (ih (step e s))

/-- A full clean round: start from the help overlay, then ten cycles of
hold, release (power 0, near option, which is the correct answer 2),
kick completion and 1500 ms advance. -/
def normalTrace : List Ev :=
  .closeHelp 0 0 [2, 4] [2, 3, 5] ::
    (List.replicate 10
      [Ev.keyDown, Ev.keyUp, Ev.kickFinish 2,
       Ev.nextTick 0 0 [2, 4] [2, 3, 5]]).flatten

/-- C9: restarting (from any state, in particular from `finished`) zeroes
the score, the question index and the elapsed-time counter, installs a
fresh question and moves the phase back to `playing`; and in any
reachable finished state, every event other than a restart leaves the
phase at `finished`. -/
theorem c9_restart_semantics :
    (∀ (s : GameSt) (r1 r2 : Nat) (draws shuffled : List Nat),
       (resetRoundFn r1 r2 draws shuffled s).score = 0 ∧
       (resetRoundFn r1 r2 draws shuffled s).questionIndex = 0 ∧
       (resetRoundFn r1 r2 draws shuffled s).elapsedSeconds = 0 ∧
       (resetRoundFn r1 r2 draws shuffled s).currentQuestion
         = some (mkQuestion r1 r2 draws shuffled) ∧
       (resetRoundFn r1 r2 draws shuffled s).gameState = .playing) ∧
    (∀ s : GameSt, Reachable s → s.gameState = .finished →
       ∀ e : Ev,
         (∀ r1 r2 draws shuffled, e ≠ .resetRound r1 r2 draws shuffled) →
         (step e s).gameState = .finished) := by
  constructor
  · intro s r1 r2 draws shuffled
    exact ⟨rfl, rfl, rfl, rfl, rfl⟩
  · intro s hr hfin e hne
    have h9 : s.questionIndex = QUESTION_COUNT - 1 := (reachable_inv hr).2 hfin
    cases e with
    | keyDown =>
      simp only [step]; unfold handleKeyDown
      rw [if_neg (by simp [hfin])]; exact hfin
    | keyUp =>
      simp only [step]; unfold handleKeyUp
      rw [if_neg (by simp [hfin])]; exact hfin
    | chargeTick =>
      simp only [step]; split
      · exact hfin
      · exact hfin
    | timerTick =>
      simp only [step]; unfold timerTickFn
      rw [if_neg (by simp [hfin])]; exact hfin
    | kickFinish v =>
      simp only [step]; split
      · unfold finishKick; dsimp only; split
        · exact hfin
        · exact hfin
      · exact hfin
    | nextTick r1 r2 draws shuffled =>
      simp only [step]; split
      · unfold questionTimeout
        split
        · next hlt =>
          exact absurd (show s.questionIndex < QUESTION_COUNT - 1 from hlt)
            (by rw [h9]; exact lt_irrefl _)
        · rfl
      · exact hfin
    | togglePause => exact hfin
    | toggleMute => exact hfin
    | openHelp => exact hfin
    | closeHelp r1 r2 draws shuffled =>
      simp only [step]; unfold closeHelpFn
      dsimp only
      rw [if_neg (by simp [hfin])]
      exact hfin
    | resetRound r1 r2 draws shuffled =>
      exact absurd rfl (hne r1 r2 draws shuffled)

set_option maxRecDepth 40000 in
/-- C9 witness: a concrete reachable finished state (a fully played
round) stays finished under a non-restart event. -/
theorem c9_restart_semantics_witness :
    (step .togglePause (runTrace normalTrace (initState 0 0 [2, 4] [2, 3, 5]))).gameState
      = GState.finished :=
  c9_restart_semantics.2 _
    ⟨0, 0, [2, 4], [2, 3, 5], runTrace_reachable normalTrace _⟩
    (by decide) .togglePause
    (fun r1 r2 draws shuffled h => by simp at h)

/-- The schedule refuting the pause claim: start playing, begin a hold
(Space down starts the 40 ms charge interval), press pause, and let one
interval tick elapse.  The source neither clears the interval on pause
nor guards its callback on the pause flag, so the tick still advances the
power. -/
def pausedChargeTrace : List Ev :=
  [.closeHelp 0 0 [2, 4] [2, 3, 5], .keyDown, .togglePause, .chargeTick]

/-- C4 (code bug exhibit): with a hold active, the power is 0 when pause
is pressed, yet after one charge tick taken while paused the power has
advanced to 4. -/
theorem c4_pause_power_advances :
    (runTrace (pausedChargeTrace.take 3) (initState 0 0 [2, 4] [2, 3, 5])).kickPower
      = 0 ∧
    (runTrace (pausedChargeTrace.take 3) (initState 0 0 [2, 4] [2, 3, 5])).isPaused
      = true ∧
    (runTrace pausedChargeTrace (initState 0 0 [2, 4] [2, 3, 5])).isPaused
      = true ∧
    (runTrace pausedChargeTrace (initState 0 0 [2, 4] [2, 3, 5])).kickPower
      = 4 := by
  decide

/-- The schedule refuting the score bound.  One kick is put in flight and
the round is reset while its animation is still running (`resetRound`
cancels neither the animation frames nor the 1500 ms timeouts and clears
`isKicking`); a second kick on the same question then overlaps it.  Both
resolve correctly, and from then on each 1500 ms timeout clears
`isKicking` while the next kick is already in flight, so pairs of correct
kicks keep overlapping.  Eleven kicks resolve correctly while only ten
timeouts fire (nine advances and one finish), so the final state shows
11 / 10.  The interleaving respects the real delays: kick completion
comes 0.9 s after launch and each timeout 1.5 s after its completion. -/
def doubleKickTrace : List Ev :=
  [.closeHelp 0 0 [2, 4] [2, 3, 5],
   .keyDown, .keyUp,
   .togglePause,
   .resetRound 0 0 [2, 4] [2, 3, 5],
   .keyDown, .keyUp,
   .kickFinish 2, .kickFinish 2,
   .nextTick 0 0 [2, 4] [2, 3, 5],
   .keyDown, .keyUp,
   .nextTick 0 0 [2, 4] [2, 3, 5],
   .keyDown, .keyUp,
   .kickFinish 2, .kickFinish 2,
   .nextTick 0 0 [2, 4] [2, 3, 5],
   .keyDown, .keyUp,
   .nextTick 0 0 [2, 4] [2, 3, 5],
   .keyDown, .keyUp,
   .kickFinish 2, .kickFinish 2,
   .nextTick 0 0 [2, 4] [2, 3, 5],
   .keyDown, .keyUp,
   .nextTick 0 0 [2, 4] [2, 3, 5],
   .keyDown, .keyUp,
   .kickFinish 2, .kickFinish 2,
   .nextTick 0 0 [2, 4] [2, 3, 5],
   .keyDown, .keyUp,
   .nextTick 0 0 [2, 4] [2, 3, 5],
   .keyDown, .keyUp,
   .kickFinish 2, .kickFinish 2,
   .nextTick 0 0 [2, 4] [2, 3, 5],
   .keyDown, .keyUp,
   .nextTick 0 0 [2, 4] [2, 3, 5],
   .kickFinish 2]

set_option maxRecDepth 40000 in
/-- C7 (code bug exhibit): the schedule above ends the round in the
`finished` phase with a score of 11, exceeding the 10-question bound. -/
theorem c7_score_exceeds_bound :
    (runTrace doubleKickTrace (initState 0 0 [2, 4] [2, 3, 5])).gameState
      = GState.finished ∧
    (runTrace doubleKickTrace (initState 0 0 [2, 4] [2, 3, 5])).score = 11 := by
  decide

end SoccerMath
